import Mathlib

/-!
Verification development for the product-query agent.

The embedding translates, from the repository source:
  * `src/agent/mock_llm.py`  — the regex-based intent classifier (`MockLLM`),
  * `src/agent/tools.py`     — the pure helper tools (`calculate_discount`, …),
  * `src/agent/graph.py`     — the three-stage pipeline (`ProductAgent`),
  * `src/mcp_server/server.py` — the in-memory product store operations.

Conventions used throughout:
  * Python numbers (int/float) are modelled by `ℚ`; `round(x, 2)` is modelled
    by round-half-to-even at two decimals (`round2`), the behaviour Python's
    `round` is specified to have on exactly representable values.  Binary
    floating point representation error is outside the model.
  * Python dicts threaded through the pipeline are modelled by the JSON-like
    type `JValue`; dict assignment `d[k] = v` is `jset` (replace in place,
    or append, preserving insertion order, as Python dicts do).
  * The Python regexes are hand-compiled to continuation-passing matchers
    (`litK`, `starK`, `plusK`, …) that reproduce `re.search` semantics on
    these particular patterns: leftmost start position, alternatives in
    written order, greedy quantifiers with backtracking, lazy `.*?`.
  * Python's Unicode `\w` and `str.lower()` are modelled on the character
    ranges actually exercised by this repository: ASCII plus the Cyrillic
    block U+0400–U+04FF.
-/

/-! ## Character classes (`re` classes restricted to ASCII + Cyrillic) -/

/-- Python `str.lower()` on the characters used by this repository:
ASCII `A`–`Z` and Cyrillic `А`–`Я`, `Ё`. -/
def toLowerCh (c : Char) : Char :=
  if 'A' ≤ c ∧ c ≤ 'Z' then Char.ofNat (c.toNat + 32)
  else if 'А' ≤ c ∧ c ≤ 'Я' then Char.ofNat (c.toNat + 32)
  else if c = 'Ё' then 'ё'
  else c

/-- Python `str.lower()` lifted to strings. -/
def lowerStr (s : String) : String := String.mk (s.data.map toLowerCh)

/-- Regex class `\w` (word character): ASCII alphanumerics, underscore, and
the Cyrillic block. -/
def isWordChar (c : Char) : Bool :=
  c.isAlphanum || c = '_' || (Char.ofNat 0x400 ≤ c && c ≤ Char.ofNat 0x4FF)

/-- Regex class `\s` (whitespace). -/
def isSpaceChar (c : Char) : Bool :=
  c = ' ' || c = '\t' || c = '\n' || c = '\x0d' || c = '\x0b' || c = '\x0c'

/-- Regex `.` (any character except newline). -/
def isNotNL (c : Char) : Bool := c ≠ '\n'

/-- Regex class `[=:]`. -/
def isEqColon (c : Char) : Bool := c = '=' || c = ':'

/-- The double-quote character. -/
def dquote : Char := Char.ofNat 34

/-- The single-quote character. -/
def squote : Char := Char.ofNat 39

/-- Regex class `["\x27]` (either quote). -/
def isQuote (c : Char) : Bool := c = dquote || c = squote

/-- Regex class `[:\s]` (colon or whitespace). -/
def isColonSpace (c : Char) : Bool := c = ':' || isSpaceChar c

/-- Regex class `[^,]` (any character but a comma). -/
def isNotComma (c : Char) : Bool := c ≠ ','

/-- Value of a digit string, as Python `int` computes it
(`int("057") = 57`). -/
def digitsToNat (ds : List Char) : Nat :=
  ds.foldl (fun a c => 10 * a + (c.toNat - '0'.toNat)) 0

/-! ## Regex combinators

Each combinator takes a continuation `k` receiving the unconsumed rest of
the input; `Option.orElse` gives the backtracking order.  Greedy stars try
the longest consumption first (`starAux`), matching the order in which a
backtracking regex engine explores alternatives. -/

/-- Backtracking core of a greedy star: `run` is the maximal run of
class characters, `rest` the input after it.  Tries consuming all of `run`
first, then progressively less. -/
def starAux (k : List Char → Option α) : List Char → List Char → Option α
  | [], rest => k rest
  | c :: run, rest => starAux k run rest <|> k (c :: (run ++ rest))

/-- Greedy `p*`. -/
def starK (p : Char → Bool) (k : List Char → Option α) (cs : List Char) :
    Option α :=
  starAux k (cs.takeWhile p) (cs.dropWhile p)

/-- Greedy `p+` (one character, then greedy star). -/
def plusK (p : Char → Bool) (k : List Char → Option α) (cs : List Char) :
    Option α :=
  match cs with
  | [] => none
  | c :: cs' => if p c then starK p k cs' else none

/-- Greedy `p?` on a character class. -/
def optClassK (p : Char → Bool) (k : List Char → Option α) (cs : List Char) :
    Option α :=
  match cs with
  | [] => k []
  | c :: cs' => if p c then (k cs' <|> k (c :: cs')) else k (c :: cs')

/-- A literal: the pattern characters must appear verbatim. -/
def litK (l : List Char) (k : List Char → Option α) (cs : List Char) :
    Option α :=
  if l.isPrefixOf cs then k (cs.drop l.length) else none

/-- A literal under `re.IGNORECASE`: the input is compared lowered
(`l` is given already lowered), the rest keeps its original case. -/
def litIK (l : List Char) (k : List Char → Option α) (cs : List Char) :
    Option α :=
  if (cs.take l.length).map toLowerCh = l then k (cs.drop l.length) else none

/-- Capture group `(\d+)`: greedy, passes the numeric value on.  In every
pattern of the source the group is followed by a non-digit, so maximal
munch is the unique greedy behaviour. -/
def capDigitsK (k : Nat → List Char → Option α) (cs : List Char) :
    Option α :=
  let run := cs.takeWhile Char.isDigit
  if run.isEmpty then none
  else k (digitsToNat run) (cs.dropWhile Char.isDigit)

/-- Capture group `(\w+)`: greedy; in the source it is always followed by a
non-word character or the end of the pattern. -/
def capWordK (k : String → List Char → Option α) (cs : List Char) :
    Option α :=
  let run := cs.takeWhile isWordChar
  if run.isEmpty then none
  else k (String.mk run) (cs.dropWhile isWordChar)

/-- Capture group `([^,]+)`: greedy, ends the pattern in the source. -/
def capNonCommaK (k : String → List Char → Option α) (cs : List Char) :
    Option α :=
  let run := cs.takeWhile isNotComma
  if run.isEmpty then none
  else k (String.mk run) (cs.dropWhile isNotComma)

/-- Model of `re.search`: try to match at every start position, leftmost first. -/
def searchAux (f : List Char → Option α) : List Char → Option α
  | [] => f []
  | c :: cs => f (c :: cs) <|> searchAux f cs

/-- Does `pat` occur as a contiguous substring (`pat in s` / a matching
`re.search` on a literal pattern)? -/
def hasSub (pat cs : List Char) : Bool :=
  (searchAux (litK pat (fun _ => some ())) cs).isSome

/-! ## The eight classifier patterns of `MockLLM.__init__`

All patterns are applied to the lowered query, so the `id|ID|Id`
alternatives of the source can only match as `id`. -/

/-- Pattern 1 body: `\w*\s*.*(продукт|товар)` (after the verb). -/
def p1Rest (cs : List Char) : Option Unit :=
  starK isWordChar (starK isSpaceChar (starK isNotNL (fun cs2 =>
    litK "продукт".data (fun _ => some ()) cs2 <|>
    litK "товар".data (fun _ => some ()) cs2))) cs

/-- Pattern 1 at a position: `(добав|создай)\w*\s*.*(продукт|товар)`. -/
def p1At (cs : List Char) : Option Unit :=
  litK "добав".data p1Rest cs <|> litK "создай".data p1Rest cs

/-- Pattern 2 at a position:
`(статистик|средн\w* цен|сколько товаров|сколько продуктов)`. -/
def p2At (cs : List Char) : Option Unit :=
  litK "статистик".data (fun _ => some ()) cs <|>
  litK "средн".data (starK isWordChar (litK " цен".data (fun _ => some ()))) cs <|>
  litK "сколько товаров".data (fun _ => some ()) cs <|>
  litK "сколько продуктов".data (fun _ => some ()) cs

/-- Lazy `.*?(?:id)\s*(\d+)` tail of pattern 3: shortest consumption first,
never across a newline. -/
def lazyIdSearch (pct : Nat) : List Char → Option (Nat × Nat)
  | [] =>
    litK "id".data (starK isSpaceChar
      (capDigitsK (fun pid _ => some (pct, pid)))) []
  | c :: cs =>
    litK "id".data (starK isSpaceChar
      (capDigitsK (fun pid _ => some (pct, pid)))) (c :: cs) <|>
    (if isNotNL c then lazyIdSearch pct cs else none)

/-- Pattern 3 at a position:
`скидк\w*\s*(\d+)\s*%.*?(?:id|ID|Id)\s*(\d+)`; yields (percent, id). -/
def p3At (cs : List Char) : Option (Nat × Nat) :=
  litK "скидк".data (starK isWordChar (starK isSpaceChar (capDigitsK
    (fun pct => starK isSpaceChar (litK "%".data (lazyIdSearch pct)))))) cs

/-- Model of `\w*\s*(id|ID|Id)\s*[=:]?\s*(\d+)` tail shared by pattern 4. -/
def p4Rest (cs : List Char) : Option Nat :=
  starK isWordChar (starK isSpaceChar (litK "id".data (starK isSpaceChar
    (optClassK isEqColon (starK isSpaceChar
      (capDigitsK (fun n _ => some n))))))) cs

/-- Optional group `(о\s*)?` of pattern 4 (greedy). -/
def optOGroup (k : List Char → Option α) (cs : List Char) : Option α :=
  match cs with
  | [] => k []
  | c :: cs' => if c = 'о' then (starK isSpaceChar k cs' <|> k (c :: cs'))
                else k (c :: cs')

/-- Model of `\s*(о\s*)?(продукт|товар)` middle of pattern 4, then `p4Rest`. -/
def p4Tail (cs : List Char) : Option Nat :=
  starK isSpaceChar (optOGroup (fun cs2 =>
    litK "продукт".data p4Rest cs2 <|> litK "товар".data p4Rest cs2)) cs

/-- Pattern 4 at a position:
`(покажи|найди|информаци\w*|дай)\s*(о\s*)?(продукт|товар)\w*\s*(id|ID|Id)\s*[=:]?\s*(\d+)`. -/
def p4At (cs : List Char) : Option Nat :=
  litK "покажи".data p4Tail cs <|>
  litK "найди".data p4Tail cs <|>
  litK "информаци".data (starK isWordChar p4Tail) cs <|>
  litK "дай".data p4Tail cs

/-- Model of `\s+(id|ID|Id)\s*[=:]?\s*(\d+)` tail of pattern 5. -/
def p5Rest (cs : List Char) : Option Nat :=
  plusK isSpaceChar (litK "id".data (starK isSpaceChar
    (optClassK isEqColon (starK isSpaceChar
      (capDigitsK (fun n _ => some n)))))) cs

/-- Pattern 5 at a position: `(продукт|товар)\s+(id|ID|Id)\s*[=:]?\s*(\d+)`. -/
def p5At (cs : List Char) : Option Nat :=
  litK "продукт".data p5Rest cs <|> litK "товар".data p5Rest cs

/-- Model of `\s+["\x27]?(\w+)["\x27]?` tail shared by patterns 6 and 7. -/
def catWordTail (cs : List Char) : Option String :=
  plusK isSpaceChar (optClassK isQuote (capWordK (fun w cs2 =>
    optClassK isQuote (fun _ => some w) cs2))) cs

/-- Model of `(категории|из категории|в категории)` then the category word. -/
def p6C (cs : List Char) : Option String :=
  litK "категории".data catWordTail cs <|>
  litK "из категории".data catWordTail cs <|>
  litK "в категории".data catWordTail cs

/-- Model of `\w*\s*` after the noun of pattern 6, then `p6C`. -/
def p6B (cs : List Char) : Option String :=
  starK isWordChar (starK isSpaceChar p6C) cs

/-- Model of `\s*(продукт|товар)` after the verb of pattern 6. -/
def p6A (cs : List Char) : Option String :=
  starK isSpaceChar (fun cs2 =>
    litK "продукт".data p6B cs2 <|> litK "товар".data p6B cs2) cs

/-- Pattern 6 at a position:
`(покажи|список|все)\s*(продукт|товар)\w*\s*(категории|из категории|в категории)\s+["\x27]?(\w+)["\x27]?`. -/
def p6At (cs : List Char) : Option String :=
  litK "покажи".data p6A cs <|>
  litK "список".data p6A cs <|>
  litK "все".data p6A cs

/-- Pattern 7 at a position: `(категори\w*)\s+["\x27]?(\w+)["\x27]?`. -/
def p7At (cs : List Char) : Option String :=
  litK "категори".data (starK isWordChar catWordTail) cs

/-- Model of `\s*(продукт|товар)` tail of pattern 8. -/
def p8A (cs : List Char) : Option Unit :=
  starK isSpaceChar (fun cs2 =>
    litK "продукт".data (fun _ => some ()) cs2 <|>
    litK "товар".data (fun _ => some ()) cs2) cs

/-- Pattern 8 at a position: `(покажи|список|все|вывести)\s*(продукт|товар)`. -/
def p8At (cs : List Char) : Option Unit :=
  litK "покажи".data p8A cs <|>
  litK "список".data p8A cs <|>
  litK "все".data p8A cs <|>
  litK "вывести".data p8A cs

/-- Model of `re.search` of pattern 1 (add-product trigger). -/
def searchP1 (cs : List Char) : Option Unit := searchAux p1At cs

/-- Model of `re.search` of pattern 2 (statistics trigger). -/
def searchP2 (cs : List Char) : Option Unit := searchAux p2At cs

/-- Model of `re.search` of pattern 3 (discount trigger; captures percent and id). -/
def searchP3 (cs : List Char) : Option (Nat × Nat) := searchAux p3At cs

/-- Model of `re.search` of pattern 4 (get-product with lead verb; captures id). -/
def searchP4 (cs : List Char) : Option Nat := searchAux p4At cs

/-- Model of `re.search` of pattern 5 (bare `товар id N`; captures id). -/
def searchP5 (cs : List Char) : Option Nat := searchAux p5At cs

/-- Model of `re.search` of pattern 6 (list with category; captures the category). -/
def searchP6 (cs : List Char) : Option String := searchAux p6At cs

/-- Model of `re.search` of pattern 7 (bare `категория NAME`; captures the name). -/
def searchP7 (cs : List Char) : Option String := searchAux p7At cs

/-- Model of `re.search` of pattern 8 (generic list trigger). -/
def searchP8 (cs : List Char) : Option Unit := searchAux p8At cs

/-! ## Data model: JSON-like values, products, parse results -/

/-- Dynamic (JSON-like) value: models the Python dicts, lists, numbers,
strings and booleans threaded through the pipeline.  Python's int/float
distinction is collapsed into `num : ℚ`; no claim depends on it. -/
inductive JValue where
  | null
  | num (q : ℚ)
  | str (s : String)
  | bool (b : Bool)
  | arr (xs : List JValue)
  | obj (fields : List (String × JValue))

/-- First-match association-list lookup (Python dict indexing). -/
def lookupJ : List (String × JValue) → String → Option JValue
  | [], _ => none
  | (k', v) :: rest, k => if k' = k then some v else lookupJ rest k

/-- Python dict assignment `d[k] = v`: replace in place, else append. -/
def jset : List (String × JValue) → String → JValue → List (String × JValue)
  | [], k, v => [(k, v)]
  | (k', v') :: rest, k, v =>
    if k' = k then (k, v) :: rest else (k', v') :: jset rest k v

/-- Is the value a dict (`isinstance(result, dict)`)? -/
def isDict : JValue → Bool
  | .obj _ => true
  | _ => false

/-- Python `k in d` on a dict value (`false` on non-dicts). -/
def jMember (k : String) : JValue → Bool
  | .obj fs => (lookupJ fs k).isSome
  | _ => false

/-- Python `d.get(k)` on a dict value (`none` on non-dicts, which in
Python would raise; such states are unreachable from the store model). -/
def jGet (v : JValue) (k : String) : Option JValue :=
  match v with
  | .obj fs => lookupJ fs k
  | _ => none

/-- Numeric content of a value.  Non-numeric operands of arithmetic would
raise `TypeError` in Python; the classifier and store never produce them,
so the `0` default is unreachable in the modelled pipeline. -/
def asNum : JValue → ℚ
  | .num q => q
  | _ => 0

/-- String content of a value (same unreachability remark as `asNum`). -/
def asStr : JValue → String
  | .str s => s
  | _ => ""

/-- Boolean content of a value (same unreachability remark as `asNum`). -/
def asBool : JValue → Bool
  | .bool b => b
  | _ => false

/-- A product record as stored by `src/mcp_server/server.py` (its
`add_product` constructs exactly these five fields). -/
structure Product where
  id : Nat
  name : String
  price : ℚ
  category : String
  in_stock : Bool
deriving DecidableEq

/-- The JSON view of a stored product (field order of `add_product`). -/
def productToJson (p : Product) : JValue :=
  .obj [("id", .num p.id), ("name", .str p.name), ("price", .num p.price),
        ("category", .str p.category), ("in_stock", .bool p.in_stock)]

/-- Model of `ToolCall` of `mock_llm.py`. -/
structure ToolCall where
  tool_name : String
  arguments : List (String × JValue)

/-- Model of `ParseResult` of `mock_llm.py`. -/
structure ParseResult where
  tool_calls : List ToolCall
  response_template : String

/-! ## Rounding

Python's `round(x, 2)` rounds half to even.  `round2` is that rule on
exact rationals. -/

/-- Round a rational to the nearest integer, half to even. -/
def rhe (x : ℚ) : ℤ :=
  let f := ⌊x⌋
  let r := x - f
  if r < 1/2 then f
  else if 1/2 < r then f + 1
  else if f % 2 = 0 then f else f + 1

/-- Model of `round(x, 2)`: round half to even at two decimal places. -/
def round2 (x : ℚ) : ℚ := (rhe (x * 100) : ℚ) / 100

/-! ## `src/agent/tools.py` -/

/-- The successful payload of `calculate_discount` (field order of the
returned dict). -/
structure DiscountInfo where
  original_price : ℚ
  discount_percent : ℚ
  discount_amount : ℚ
  final_price : ℚ
deriving DecidableEq

/-- Result of `calculate_discount`: either the four price fields or a
dict containing only an error message. -/
inductive DiscountResult where
  | ok (info : DiscountInfo)
  | err (msg : String)
deriving DecidableEq

/-- Model of `tools.calculate_discount`: validates the percent, then returns the
original price, the percent, and the rounded discount and final prices. -/
def calculate_discount (price percent : ℚ) : DiscountResult :=
  if percent < 0 ∨ percent > 100 then
    .err "Discount percentage must be between 0 and 100"
  else
    let discount_amount := price * (percent / 100)
    let final_price := price - discount_amount
    .ok ⟨price, percent, round2 discount_amount, round2 final_price⟩

/-- The dict `calculate_discount` hands to the pipeline. -/
def discountToJson : DiscountResult → JValue
  | .ok i => .obj [("original_price", .num i.original_price),
                   ("discount_percent", .num i.discount_percent),
                   ("discount_amount", .num i.discount_amount),
                   ("final_price", .num i.final_price)]
  | .err m => .obj [("error", .str m)]

/-- Model of `tools.format_price` (`f"{amount}"`): stringification.  The exact
Python float rendering is not modelled; the classifier never emits a
`format_price` call, so this branch is unreachable in the pipeline. -/
def format_price (amount : JValue) : String :=
  match amount with
  | .num q => if q.den = 1 then toString q.num else toString q
  | .str s => s
  | _ => ""

/-- One entry of `tools.format_product_list`: project the five display
fields; `in_stock` defaults to `False` when absent. -/
def productView (v : JValue) : JValue :=
  .obj [("id", (jGet v "id").getD .null),
        ("name", (jGet v "name").getD .null),
        ("price", (jGet v "price").getD .null),
        ("category", (jGet v "category").getD .null),
        ("in_stock", (jGet v "in_stock").getD (.bool false))]

/-- Model of `tools.format_product_list`: map the projection over the list (an
empty list maps to an empty list, which is also what the `if not
products` early return yields). -/
def format_product_list (v : JValue) : JValue :=
  match v with
  | .arr ps => .arr (ps.map productView)
  | _ => .arr []

/-- Model of `tools.format_statistics`: identity. -/
def format_statistics (v : JValue) : JValue := v

/-! ## `src/mcp_server/server.py`: the product store operations -/

/-- Model of `server.list_products`: with a truthy category (Python: non-`None`,
non-empty), keep the products whose lowered category equals the lowered
filter; otherwise return the whole store. -/
def list_products (category : Option String) (ps : List Product) :
    List Product :=
  match category with
  | some c =>
    if c = "" then ps
    else ps.filter (fun p => lowerStr p.category == lowerStr c)
  | none => ps

/-- Python `f"{n}"` on the numbers the pipeline passes as ids. -/
def pyNumRepr (q : ℚ) : String :=
  if q.den = 1 then toString q.num else toString q

/-- Model of `server.get_product`: first product with the given id, else an error
dict. -/
def get_product (product_id : ℚ) (ps : List Product) : JValue :=
  match ps.find? (fun p => (p.id : ℚ) == product_id) with
  | some p => productToJson p
  | none => .obj [("error",
      .str ("Product with ID " ++ pyNumRepr product_id ++ " not found"))]

/-- Model of `server.add_product`: assign `max id + 1` (0 on an empty store),
append, return the new product and the new store. -/
def add_product (name : String) (price : ℚ) (category : String)
    (in_stock : Bool) (ps : List Product) : Product × List Product :=
  let new_id := (ps.map Product.id).foldr max 0 + 1
  let p : Product := ⟨new_id, name, price, category, in_stock⟩
  (p, ps ++ [p])

/-- The statistics dict of `server.get_statistics`. -/
structure Statistics where
  total_count : Nat
  average_price : ℚ
  in_stock_count : Nat
  categories : List (String × Nat)
deriving DecidableEq

/-- One step of the category breakdown: `categories[cat] =
categories.get(cat, 0) + 1` (insertion order preserved). -/
def bumpCat : List (String × Nat) → String → List (String × Nat)
  | [], c => [(c, 1)]
  | (k, n) :: rest, c =>
    if k = c then (k, n + 1) :: rest else (k, n) :: bumpCat rest c

/-- Category breakdown of `server.get_statistics`. -/
def catBreakdown (ps : List Product) : List (String × Nat) :=
  ps.foldl (fun m p => bumpCat m p.category) []

/-- Model of `server.get_statistics`: the all-zero record on an empty store;
otherwise count, rounded average price, in-stock count and breakdown.
The division by the product count only occurs in the non-empty branch. -/
def get_statistics (ps : List Product) : Statistics :=
  if ps.isEmpty then ⟨0, 0, 0, []⟩
  else ⟨ps.length,
        round2 ((ps.map Product.price).sum / (ps.length : ℚ)),
        (ps.filter Product.in_stock).length,
        catBreakdown ps⟩

/-- JSON view of the statistics dict. -/
def statsToJson (s : Statistics) : JValue :=
  .obj [("total_count", .num s.total_count),
        ("average_price", .num s.average_price),
        ("in_stock_count", .num s.in_stock_count),
        ("categories", .obj (s.categories.map (fun kv =>
          (kv.1, JValue.num kv.2))))]

/-! ## `MockLLM` handlers and `parse` -/

/-- Python `str.strip()`: drop whitespace from both ends. -/
def stripStr (s : String) : String :=
  String.mk (((s.data.dropWhile isSpaceChar).reverse.dropWhile
    isSpaceChar).reverse)

/-- Name sub-pattern of `_parse_add_product`:
`(?:продукт|товар)[:\s]+([^,]+)` with `re.IGNORECASE`, searched on the
original-case query. -/
def nameAt (cs : List Char) : Option String :=
  litIK "продукт".data (plusK isColonSpace
    (capNonCommaK (fun s _ => some s))) cs <|>
  litIK "товар".data (plusK isColonSpace
    (capNonCommaK (fun s _ => some s))) cs

/-- Model of `re.search` of the name sub-pattern. -/
def searchName (cs : List Char) : Option String := searchAux nameAt cs

/-- Price sub-pattern of `_parse_add_product`: `цена\s*[=:]*\s*(\d+)`
with `re.IGNORECASE`. -/
def priceAt (cs : List Char) : Option Nat :=
  litIK "цена".data (starK isSpaceChar (starK isEqColon
    (starK isSpaceChar (capDigitsK (fun n _ => some n))))) cs

/-- Model of `re.search` of the price sub-pattern. -/
def searchPrice (cs : List Char) : Option Nat := searchAux priceAt cs

/-- Category sub-pattern of `_parse_add_product`:
`категория\s*[=:]*\s*(\w+)` with `re.IGNORECASE`. -/
def catAt (cs : List Char) : Option String :=
  litIK "категория".data (starK isSpaceChar (starK isEqColon
    (starK isSpaceChar (capWordK (fun w _ => some w))))) cs

/-- Model of `re.search` of the category sub-pattern. -/
def searchCat (cs : List Char) : Option String := searchAux catAt cs

/-- Extracted name of `_parse_add_product` (stripped capture, or the
default). -/
def addName (q : String) : String :=
  match searchName q.data with
  | some s => stripStr s
  | none => "Новый продукт"

/-- Extracted price of `_parse_add_product`. -/
def addPrice (q : String) : ℚ :=
  match searchPrice q.data with
  | some n => (n : ℚ)
  | none => 0

/-- Extracted category of `_parse_add_product`. -/
def addCategory (q : String) : String :=
  match searchCat q.data with
  | some c => c
  | none => "Без категории"

/-- Model of `in_stock` of `_parse_add_product`: true unless the lowered query
contains the out-of-stock phrase. -/
def addInStock (q : String) : Bool :=
  ! hasSub "нет в наличии".data (lowerStr q).data

/-- Model of `MockLLM._parse_add_product`: one `add_product` call carrying the
four independently extracted fields. -/
def parseAddProduct (q : String) : ParseResult :=
  ⟨[⟨"add_product",
     [("name", .str (addName q)), ("price", .num (addPrice q)),
      ("category", .str (addCategory q)),
      ("in_stock", .bool (addInStock q))]⟩],
   "Продукт добавлен:\n{result}"⟩

/-- Model of `MockLLM._parse_list_with_category` (the captured group of `(\w+)` is
never empty, so the truthiness test on it always passes). -/
def parseListWithCategory (cat : String) : ParseResult :=
  if cat ≠ "" then
    ⟨[⟨"list_products", [("category", .str cat)]⟩],
     "Продукты в категории \x27" ++ cat ++ "\x27:\n{result}"⟩
  else
    ⟨[⟨"list_products", []⟩], "Список всех продуктов:\n{result}"⟩

/-- Model of `MockLLM.parse`: try the eight rules in order against the lowered
query; the first match wins; fall back to listing all products.  The
function is total: it yields exactly one `ParseResult` on every input. -/
def mockParse (q : String) : ParseResult :=
  let ql := (lowerStr q).data
  match searchP1 ql with
  | some _ => parseAddProduct q
  | none =>
    match searchP2 ql with
    | some _ => ⟨[⟨"get_statistics", []⟩],
                 "Статистика по продуктам:\n{result}"⟩
    | none =>
      match searchP3 ql with
      | some (pct, pid) =>
        ⟨[⟨"get_product", [("product_id", .num pid)]⟩,
          ⟨"calculate_discount", [("percent", .num pct)]⟩],
         "Расчёт скидки:\n{result}"⟩
      | none =>
        match searchP4 ql with
        | some pid => ⟨[⟨"get_product", [("product_id", .num pid)]⟩],
                       "Информация о продукте:\n{result}"⟩
        | none =>
          match searchP5 ql with
          | some pid => ⟨[⟨"get_product", [("product_id", .num pid)]⟩],
                         "Информация о продукте:\n{result}"⟩
          | none =>
            match searchP6 ql with
            | some cat => parseListWithCategory cat
            | none =>
              match searchP7 ql with
              | some cat =>
                ⟨[⟨"list_products", [("category", .str cat)]⟩],
                 "Продукты в категории \x27" ++ cat ++ "\x27:\n{result}"⟩
              | none =>
                match searchP8 ql with
                | some _ => ⟨[⟨"list_products", []⟩],
                             "Список всех продуктов:\n{result}"⟩
                | none => ⟨[⟨"list_products", []⟩],
                           "Вот список продуктов:\n{result}"⟩

/-! ## `src/agent/graph.py`: the Parse → Execute → Format pipeline -/

/-- Model of `AgentState` of `graph.py`.  `response` starts as the empty string and
becomes a dict in the Format stage, so it is a `JValue`. -/
structure AgentState where
  query : String
  parse_result : Option ParseResult
  tool_results : List (String × JValue)
  response : JValue
  tools_used : List String
  error : Option String

/-- The condition guarding the discount computation in `_execute_tools`:
`isinstance(product_result, dict) and "price" in product_result`. -/
def hasPriceDict (v : JValue) : Bool := isDict v && jMember "price" v

/-- The soft error recorded when a discount has no prior product. -/
def discountMissingErr : JValue :=
  .obj [("error", .str "Product not found for discount calculation")]

/-- Set a key on a dict value (`result["product_name"] = ...`). -/
def jsetObj (v : JValue) (k : String) (w : JValue) : JValue :=
  match v with
  | .obj fs => .obj (jset fs k w)
  | _ => v

/-- Model of `ProductAgent._call_mcp_tool`: dispatch to the store operations;
unknown names yield an error dict.  Returns the updated store and the
tool result. -/
def callMcp (store : List Product) (tc : ToolCall) :
    List Product × JValue :=
  if tc.tool_name = "list_products" then
    let category : Option String :=
      match lookupJ tc.arguments "category" with
      | some (.str c) => some c
      | _ => none
    (store, .arr ((list_products category store).map productToJson))
  else if tc.tool_name = "get_product" then
    let pid := asNum ((lookupJ tc.arguments "product_id").getD (.num 0))
    (store, get_product pid store)
  else if tc.tool_name = "add_product" then
    let name := asStr ((lookupJ tc.arguments "name").getD (.str ""))
    let price := asNum ((lookupJ tc.arguments "price").getD (.num 0))
    let category := asStr ((lookupJ tc.arguments "category").getD (.str ""))
    let in_stock := asBool ((lookupJ tc.arguments "in_stock").getD (.bool true))
    let (p, store') := add_product name price category in_stock store
    (store', productToJson p)
  else if tc.tool_name = "get_statistics" then
    (store, statsToJson (get_statistics store))
  else
    (store, .obj [("error", .str ("Unknown tool: " ++ tc.tool_name))])

/-- One iteration of the `_execute_tools` loop. -/
def execOne (store : List Product) (acc : List (String × JValue))
    (tc : ToolCall) : List Product × List (String × JValue) :=
  if tc.tool_name = "calculate_discount" then
    let product_result := (lookupJ acc "get_product").getD (.obj [])
    let result :=
      if hasPriceDict product_result then
        let price := asNum ((jGet product_result "price").getD (.num 0))
        let percent := asNum ((lookupJ tc.arguments "percent").getD (.num 0))
        jsetObj (discountToJson (calculate_discount price percent))
          "product_name" ((jGet product_result "name").getD (.str "Unknown"))
      else discountMissingErr
    (store, jset acc "calculate_discount" result)
  else if tc.tool_name = "format_price" then
    (store, jset acc "format_price"
      (.str (format_price ((lookupJ tc.arguments "amount").getD .null))))
  else
    let (store', result) := callMcp store tc
    (store', jset acc tc.tool_name result)

/-- The `_execute_tools` loop over the tool calls, accumulating results
keyed by tool name and threading the store through. -/
def executeCalls (store : List Product) :
    List ToolCall → List (String × JValue) →
    List Product × List (String × JValue)
  | [], acc => (store, acc)
  | tc :: rest, acc =>
    let sr := execOne store acc tc
    executeCalls sr.1 rest sr.2

/-- Model of `ProductAgent._parse_request`: run the classifier, record the parse
result and the selected tool names.  The classifier is total, so the
`except` branch of the source is unreachable in the model. -/
def parseNode (s : AgentState) : AgentState :=
  let pr := mockParse s.query
  { s with parse_result := some pr,
           tools_used := pr.tool_calls.map ToolCall.tool_name }

/-- Model of `ProductAgent._execute_tools` as a graph node. -/
def executeNode (store : List Product) (s : AgentState) : AgentState :=
  if s.error.isSome then s
  else
    match s.parse_result with
    | none => { s with error := some "No parse result" }
    | some pr =>
      { s with tool_results := (executeCalls store pr.tool_calls []).2 }

/-- One iteration of the `_format_response` loop: place each tool result
under its semantic response key. -/
def formatStep (acc : List (String × JValue)) (entry : String × JValue) :
    List (String × JValue) :=
  if entry.1 = "list_products" then
    jset acc "products" (format_product_list entry.2)
  else if entry.1 = "get_product" then
    if isDict entry.2 && jMember "name" entry.2 then
      jset acc "product" entry.2
    else
      jset acc "error" ((jGet entry.2 "error").getD (.str "Продукт не найден"))
  else if entry.1 = "get_statistics" then
    jset acc "statistics" (format_statistics entry.2)
  else if entry.1 = "add_product" then
    jset acc "added_product" entry.2
  else if entry.1 = "calculate_discount" then
    jset acc "discount" entry.2
  else
    jset acc entry.1 entry.2

/-- The response dict built by `_format_response` from the tool results. -/
def formatResults (tr : List (String × JValue)) : List (String × JValue) :=
  tr.foldl formatStep []

/-- Model of `ProductAgent._format_response` as a graph node. -/
def formatNode (s : AgentState) : AgentState :=
  match s.error with
  | some e => { s with response := .obj [("error", .str e)] }
  | none =>
    if s.tool_results.isEmpty then
      { s with response := .obj [("error", .str "Не удалось выполнить запрос")] }
    else
      { s with response := .obj (formatResults s.tool_results) }

/-- The pair `process_query` returns. -/
structure ProcessOutput where
  response : JValue
  tools_used : List String

/-- Model of `ProductAgent.process_query`: run the three stages in order on a fresh
state and project the response and the used tools. -/
def processQuery (q : String) (store : List Product) : ProcessOutput :=
  let s0 : AgentState := ⟨q, none, [], .str "", [], none⟩
  let s3 := formatNode (executeNode store (parseNode s0))
  ⟨s3.response, s3.tools_used⟩

/-- Lookup on the response value of the pipeline (`response["error"]`
etc. in the tests). -/
def respGet (out : ProcessOutput) (k : String) : Option JValue :=
  jGet out.response k

/-! ## Spec-side reference definitions and proof scaffolding -/

/-- Name extraction as claim C9 words it (spec reference, for comparison
with the source's `addName`): the substring after a `продукт:`/`товар:`
marker — the marker immediately followed by a colon — up to the next
comma; the default name otherwise. -/
def nameAtSpec (cs : List Char) : Option String :=
  litIK "продукт:".data (capNonCommaK (fun s _ => some s)) cs <|>
  litIK "товар:".data (capNonCommaK (fun s _ => some s)) cs

/-- The claim-side name extractor (see `nameAtSpec`). -/
def addNameSpec (q : String) : String :=
  match searchAux nameAtSpec q.data with
  | some s => stripStr s
  | none => "Новый продукт"

/-- Proposition that `pat` occurs contiguously inside `cs`. -/
def occursIn (pat cs : List Char) : Prop := ∃ a b, cs = a ++ (pat ++ b)

/-- The response key a `formatStep` entry writes (characterisation of the
`_format_response` dispatch, proved equal to `formatStep` below). -/
def formatKey (entry : String × JValue) : String :=
  if entry.1 = "list_products" then "products"
  else if entry.1 = "get_product" then
    (if isDict entry.2 && jMember "name" entry.2 then "product" else "error")
  else if entry.1 = "get_statistics" then "statistics"
  else if entry.1 = "add_product" then "added_product"
  else if entry.1 = "calculate_discount" then "discount"
  else entry.1

/-- The response value a `formatStep` entry writes. -/
def formatVal (entry : String × JValue) : JValue :=
  if entry.1 = "list_products" then format_product_list entry.2
  else if entry.1 = "get_product" then
    (if isDict entry.2 && jMember "name" entry.2 then entry.2
     else (jGet entry.2 "error").getD (.str "Продукт не найден"))
  else if entry.1 = "get_statistics" then format_statistics entry.2
  else if entry.1 = "add_product" then entry.2
  else if entry.1 = "calculate_discount" then entry.2
  else entry.2

/-! ## Basic lemmas on `jset` / `lookupJ` -/

/-- Setting a key makes it present with the given value. -/
theorem lookupJ_jset_self (l : List (String × JValue)) (k : String)
    (v : JValue) : lookupJ (jset l k v) k = some v := by
  induction l with
  | nil => simp [jset, lookupJ]
  | cons a l ih =>
    obtain ⟨k', v'⟩ := a
    by_cases h : k' = k
    · simp [jset, h, lookupJ]
    · simp [jset, h, lookupJ, ih]

/-- Setting one key leaves every other key unchanged. -/
theorem lookupJ_jset_ne (l : List (String × JValue)) (k k' : String)
    (v : JValue) (h : k' ≠ k) : lookupJ (jset l k' v) k = lookupJ l k := by
  induction l with
  | nil => simp [jset, lookupJ, h]
  | cons a l ih =>
    obtain ⟨ka, va⟩ := a
    by_cases ha : ka = k'
    · simp [jset, ha, lookupJ, h]
    · simp [jset, ha, lookupJ, ih]

/-- Setting a key never removes a present key. -/
theorem lookupJ_jset_isSome (l : List (String × JValue)) (k k' : String)
    (v : JValue) (h : (lookupJ l k).isSome = true) :
    (lookupJ (jset l k' v) k).isSome = true := by
  by_cases hk : k' = k
  · subst hk; rw [lookupJ_jset_self]; rfl
  · rw [lookupJ_jset_ne _ _ _ _ hk]; exact h

/-! ## Pipeline bookkeeping lemmas -/

/-- The Execute stage never touches `tools_used`. -/
theorem executeNode_tools_used (store : List Product) (s : AgentState) :
    (executeNode store s).tools_used = s.tools_used := by
  unfold executeNode
  split
  · rfl
  · split <;> rfl

/-- The Format stage never touches `tools_used`. -/
theorem formatNode_tools_used (s : AgentState) :
    (formatNode s).tools_used = s.tools_used := by
  unfold formatNode
  split
  · rfl
  · split <;> rfl

/-- The Parse stage leaves `error` unset. -/
theorem parseNode_error (s : AgentState) :
    (parseNode s).error = s.error := rfl

/-- Lemma: `process_query` reports exactly the tool names the classifier
selected, in order. -/
theorem processQuery_tools_used (q : String) (store : List Product) :
    (processQuery q store).tools_used =
      (mockParse q).tool_calls.map ToolCall.tool_name := by
  show (formatNode (executeNode store (parseNode _))).tools_used = _
  rw [formatNode_tools_used, executeNode_tools_used]
  rfl

/-! ## Claims C1, C2: `calculate_discount` -/

/-- C1: for every price `p` and percent `q` with `0 ≤ q ≤ 100`,
`calculate_discount(p, q)` returns a record with `original_price = p`,
`discount_percent = q`, `discount_amount = p·q/100` rounded to two
decimals, and `final_price = p − p·q/100` rounded to two decimals; in
particular `calculate_discount(1000, 15)` yields
`{1000, 15, 150, 850}`. -/
theorem C1_discount_in_range (p q : ℚ) (h0 : 0 ≤ q) (h1 : q ≤ 100) :
    calculate_discount p q =
      .ok ⟨p, q, round2 (p * (q / 100)), round2 (p - p * (q / 100))⟩ ∧
    calculate_discount 1000 15 = .ok ⟨1000, 15, 150, 850⟩ := by
  constructor
  · have h : ¬(q < 0 ∨ q > 100) := by
      push_neg
      exact ⟨h0, h1⟩
    simp only [calculate_discount, if_neg h]
  · simp only [calculate_discount]
    rw [if_neg (by norm_num)]
    norm_num [round2, rhe]

/-- Witness for C1 at `(1000, 15)`. -/
theorem C1_witness :
    0 ≤ (15 : ℚ) ∧ (15 : ℚ) ≤ 100 ∧
    calculate_discount 1000 15 = .ok ⟨1000, 15, 150, 850⟩ :=
  ⟨by norm_num, by norm_num,
   (C1_discount_in_range 1000 15 (by norm_num) (by norm_num)).2⟩

/-- C2: for every price `p` and percent `q` outside `[0, 100]`,
`calculate_discount(p, q)` returns only an error message — none of the
four price fields (the `err` constructor carries only the message). -/
theorem C2_discount_out_of_range (p q : ℚ) (h : q < 0 ∨ q > 100) :
    calculate_discount p q =
      .err "Discount percentage must be between 0 and 100" := by
  simp only [calculate_discount, if_pos h]

/-- Witness for C2 at `(5, 150)`. -/
theorem C2_witness :
    ((150 : ℚ) < 0 ∨ (150 : ℚ) > 100) ∧
    calculate_discount 5 150 =
      .err "Discount percentage must be between 0 and 100" :=
  ⟨Or.inr (by norm_num), C2_discount_out_of_range 5 150 (Or.inr (by norm_num))⟩

/-! ## Claim C10: statistics on the empty store -/

/-- C10: on the empty store `get_statistics` returns exactly
`{total_count: 0, average_price: 0, in_stock_count: 0, categories: {}}`,
and the average-price division is only taken in the non-empty branch,
where the divisor (the store size) is non-zero — so the operation is
total for every store. -/
theorem C10_statistics_empty_safe (store : List Product) :
    get_statistics [] = ⟨0, 0, 0, []⟩ ∧
    (store ≠ [] →
      (get_statistics store).average_price =
        round2 ((store.map Product.price).sum / (store.length : ℚ)) ∧
      (store.length : ℚ) ≠ 0) := by
  refine ⟨rfl, fun h => ?_⟩
  have he : store.isEmpty = false := by
    cases store with
    | nil => simp at h
    | cons a l => rfl
  refine ⟨by simp [get_statistics, he], ?_⟩
  have hp : store.length ≠ 0 := by
    cases store with
    | nil => simp at h
    | cons a l => simp
  exact_mod_cast hp

/-- Witness for C10 on a one-product store. -/
theorem C10_witness :
    ([⟨1, "Ноутбук", 50000, "Электроника", true⟩] : List Product) ≠ [] ∧
    ((get_statistics [⟨1, "Ноутбук", 50000, "Электроника", true⟩]).average_price =
       round2 ((([⟨1, "Ноутбук", 50000, "Электроника", true⟩] : List Product).map
         Product.price).sum /
         (([⟨1, "Ноутбук", 50000, "Электроника", true⟩] : List Product).length : ℚ)) ∧
     ((([⟨1, "Ноутбук", 50000, "Электроника", true⟩] : List Product).length : ℚ) ≠ 0)) :=
  ⟨by simp,
   (C10_statistics_empty_safe [⟨1, "Ноутбук", 50000, "Электроника", true⟩]).2 (by simp)⟩

/-! ## Claim C4: the `tools_used` invariant -/

/-- C4: for every query, `tools_used` at the end of the pipeline equals
the ordered operation names of the tool calls the classifier selected,
and the Execute and Format stages leave `tools_used` untouched on every
state — in particular regardless of execution outcome. -/
theorem C4_tools_used_invariant (q : String) (store : List Product) :
    (processQuery q store).tools_used =
      (mockParse q).tool_calls.map ToolCall.tool_name ∧
    (∀ s : AgentState, (executeNode store s).tools_used = s.tools_used) ∧
    (∀ s : AgentState, (formatNode s).tools_used = s.tools_used) :=
  ⟨processQuery_tools_used q store,
   fun s => executeNode_tools_used store s,
   fun s => formatNode_tools_used s⟩

/-! ## Claim C3: the default fallback of the classifier -/

/-- C3: on every query whose lowered form matches none of the eight
pattern rules, the classifier — which is a total function, producing
exactly one `ParseResult` on every input — returns the single
argument-free list-all call with the generic template, and the pipeline
reports `tools_used = ["list_products"]`. -/
theorem C3_default_fallback (q : String) (store : List Product)
    (h1 : searchP1 (lowerStr q).data = none)
    (h2 : searchP2 (lowerStr q).data = none)
    (h3 : searchP3 (lowerStr q).data = none)
    (h4 : searchP4 (lowerStr q).data = none)
    (h5 : searchP5 (lowerStr q).data = none)
    (h6 : searchP6 (lowerStr q).data = none)
    (h7 : searchP7 (lowerStr q).data = none)
    (h8 : searchP8 (lowerStr q).data = none) :
    mockParse q = ⟨[⟨"list_products", []⟩], "Вот список продуктов:\n{result}"⟩ ∧
    (processQuery q store).tools_used = ["list_products"] := by
  have hp : mockParse q =
      ⟨[⟨"list_products", []⟩], "Вот список продуктов:\n{result}"⟩ := by
    simp only [mockParse, h1, h2, h3, h4, h5, h6, h7, h8]
  exact ⟨hp, by rw [processQuery_tools_used, hp]; rfl⟩

/-- Witness for C3 on the query `"hello"`. -/
theorem C3_witness :
    searchP1 (lowerStr "hello").data = none ∧
    searchP8 (lowerStr "hello").data = none ∧
    mockParse "hello" =
      ⟨[⟨"list_products", []⟩], "Вот список продуктов:\n{result}"⟩ ∧
    (processQuery "hello" []).tools_used = ["list_products"] :=
  ⟨rfl, rfl,
   C3_default_fallback "hello" [] rfl rfl rfl rfl rfl rfl rfl rfl⟩

/-! ## Claim C6: discount without a prior product is a soft error -/

/-- C6: when the Execute stage reaches a `calculate_discount` call and
the accumulated results hold no prior `get_product` result that is a
dict with a `price` field, it records the error object under the
`calculate_discount` key and carries on with the remaining calls — the
stage is not aborted. -/
theorem C6_discount_missing_product (store : List Product)
    (acc : List (String × JValue)) (rest : List ToolCall)
    (args : List (String × JValue))
    (h : hasPriceDict ((lookupJ acc "get_product").getD (.obj [])) = false) :
    executeCalls store (⟨"calculate_discount", args⟩ :: rest) acc =
      executeCalls store rest (jset acc "calculate_discount" discountMissingErr) ∧
    lookupJ (jset acc "calculate_discount" discountMissingErr)
      "calculate_discount" = some discountMissingErr := by
  refine ⟨?_, lookupJ_jset_self acc _ _⟩
  show executeCalls store _ _ = _
  conv_lhs => rw [executeCalls]
  simp only [execOne, if_pos rfl, h, Bool.false_eq_true, if_false, if_true]

/-- Witness for C6 with an empty result accumulator. -/
theorem C6_witness :
    hasPriceDict ((lookupJ ([] : List (String × JValue))
      "get_product").getD (.obj [])) = false ∧
    executeCalls [] [⟨"calculate_discount", []⟩] [] =
      executeCalls [] [] (jset [] "calculate_discount" discountMissingErr) :=
  ⟨rfl, (C6_discount_missing_product [] [] [] [] rfl).1⟩

/-! ## Claim C8: category filtering -/

/-- Counterexample to C8 as stated: with the empty category string —
falsy in Python — `list_products` returns the whole store, not the
products whose category equals `""` (there are none in this store). -/
theorem C8_cex_empty_category :
    list_products (some "") [⟨1, "Стол", 100, "Мебель", true⟩] =
      [⟨1, "Стол", 100, "Мебель", true⟩] ∧
    List.filter (fun p : Product => lowerStr p.category == lowerStr "")
      ([⟨1, "Стол", 100, "Мебель", true⟩] : List Product) = [] :=
  ⟨rfl, rfl⟩

/-- C8 (amended to non-empty filters): for every non-empty category
string `c` and every store, `list_products` returns exactly the products
whose category equals `c` case-insensitively, in store order. -/
theorem C8_list_products_filter (c : String) (store : List Product)
    (h : c ≠ "") :
    list_products (some c) store =
      store.filter (fun p => lowerStr p.category == lowerStr c) := by
  simp [list_products, h]

/-- Witness for C8: a store holding an `Electronics` product returns it
for the filter `electronics`. -/
theorem C8_witness :
    "electronics" ≠ "" ∧
    list_products (some "electronics")
      [⟨1, "Ноутбук", 50000, "Electronics", true⟩,
       ⟨2, "Стол", 100, "Мебель", false⟩] =
      [⟨1, "Ноутбук", 50000, "Electronics", true⟩] := by
  refine ⟨by decide, ?_⟩
  rw [C8_list_products_filter _ _ (by decide)]
  rfl

/-! ## Claim C5: discount queries -/

/-- Counterexample to C5 as stated: this query matches the discount
pattern (percent then id), yet the add-product rule is checked first and
wins, so `tools_used` is `["add_product"]`, not the two discount calls. -/
theorem C5_cex_priority :
    (searchP3 (lowerStr "добавь продукт скидка 10% id 5").data).isSome = true ∧
    (processQuery "добавь продукт скидка 10% id 5" []).tools_used =
      ["add_product"] ∧
    (["add_product"] ≠ ["get_product", "calculate_discount"]) := by
  refine ⟨rfl, ?_, by decide⟩
  rw [processQuery_tools_used]
  rfl

/-- C5 (amended to account for rule priority): every query matching the
discount pattern and neither of the two earlier rules (add-product,
statistics) yields exactly `tools_used = [get_product,
calculate_discount]`, in that order. -/
theorem C5_discount_tools_used (q : String) (store : List Product)
    (h1 : searchP1 (lowerStr q).data = none)
    (h2 : searchP2 (lowerStr q).data = none)
    (h3 : (searchP3 (lowerStr q).data).isSome = true) :
    (processQuery q store).tools_used =
      ["get_product", "calculate_discount"] := by
  obtain ⟨⟨pct, pid⟩, hx⟩ := Option.isSome_iff_exists.mp h3
  rw [processQuery_tools_used]
  simp only [mockParse, h1, h2, hx]
  rfl

/-- Witness for C5 on a pure discount query. -/
theorem C5_witness :
    searchP1 (lowerStr "скидка 15% на товар id 1").data = none ∧
    searchP2 (lowerStr "скидка 15% на товар id 1").data = none ∧
    (searchP3 (lowerStr "скидка 15% на товар id 1").data).isSome = true ∧
    (processQuery "скидка 15% на товар id 1" []).tools_used =
      ["get_product", "calculate_discount"] :=
  ⟨rfl, rfl, rfl, C5_discount_tools_used _ [] rfl rfl rfl⟩

/-! ## Claim C9: add-product extraction -/

/-- Counterexample to C9 as stated: in `"добавь товар мышка"` the marker
is followed by a space, not a colon, so the claim's name rule falls back
to the default — but the source pattern `(?:продукт|товар)[:\s]+([^,]+)`
also accepts whitespace and extracts `"мышка"`. -/
theorem C9_cex_name_marker :
    addName "добавь товар мышка" = "мышка" ∧
    addNameSpec "добавь товар мышка" = "Новый продукт" ∧
    mockParse "добавь товар мышка" = ⟨[⟨"add_product",
      [("name", .str "мышка"), ("price", .num 0),
       ("category", .str "Без категории"), ("in_stock", .bool true)]⟩],
      "Продукт добавлен:\n{result}"⟩ ∧
    ("мышка" ≠ "Новый продукт") :=
  ⟨rfl, rfl, rfl, by decide⟩

/-- C9 (amended: the name marker may be followed by colons or
whitespace): every query matching the add-product rule produces a single
create call whose four arguments come from the independent sub-patterns
applied to the original-case query, each falling back to its default
when its sub-pattern is absent, and with `in_stock` true exactly when
the lowered query lacks the out-of-stock phrase. -/
theorem C9_add_product_extraction (q : String)
    (h : (searchP1 (lowerStr q).data).isSome = true) :
    mockParse q = ⟨[⟨"add_product",
      [("name", .str (addName q)), ("price", .num (addPrice q)),
       ("category", .str (addCategory q)),
       ("in_stock", .bool (addInStock q))]⟩],
      "Продукт добавлен:\n{result}"⟩ ∧
    (searchName q.data = none → addName q = "Новый продукт") ∧
    (searchPrice q.data = none → addPrice q = 0) ∧
    (searchCat q.data = none → addCategory q = "Без категории") ∧
    (addInStock q = true ↔
      hasSub "нет в наличии".data (lowerStr q).data = false) := by
  obtain ⟨u, hx⟩ := Option.isSome_iff_exists.mp h
  refine ⟨?_, ?_, ?_, ?_, ?_⟩
  · simp only [mockParse, hx]
    rfl
  · intro hn; simp [addName, hn]
  · intro hn; simp [addPrice, hn]
  · intro hn; simp [addCategory, hn]
  · simp [addInStock]

/-- Witness for C9 on a fully specified add query. -/
theorem C9_witness :
    (searchP1 (lowerStr
      "Добавь продукт: Мышка, цена 1500, категория Электроника").data).isSome
      = true ∧
    mockParse "Добавь продукт: Мышка, цена 1500, категория Электроника" =
      ⟨[⟨"add_product",
        [("name", .str "Мышка"), ("price", .num 1500),
         ("category", .str "Электроника"), ("in_stock", .bool true)]⟩],
       "Продукт добавлен:\n{result}"⟩ :=
  ⟨rfl,
   (C9_add_product_extraction
     "Добавь продукт: Мышка, цена 1500, категория Электроника" rfl).1⟩

/-! ## Occurrence lemmas for the pattern matchers -/

/-- A successful `isPrefixOf` exposes the split. -/
theorem isPrefixOf_exists {l cs : List Char} (h : l.isPrefixOf cs = true) :
    ∃ r, cs = l ++ r := by
  induction l generalizing cs with
  | nil => exact ⟨cs, rfl⟩
  | cons c l ih =>
    cases cs with
    | nil => simp [List.isPrefixOf] at h
    | cons d cs =>
      simp only [List.isPrefixOf, Bool.and_eq_true, beq_iff_eq] at h
      obtain ⟨rfl, h2⟩ := h
      obtain ⟨r, hr⟩ := ih h2
      exact ⟨r, by rw [List.cons_append, hr]⟩

/-- A successful literal match starts with the literal. -/
theorem litK_starts {l : List Char} {k : List Char → Option α}
    {cs : List Char} {a : α} (h : litK l k cs = some a) :
    ∃ r, cs = l ++ r := by
  unfold litK at h
  split at h
  · exact isPrefixOf_exists (by assumption)
  · exact absurd h (by simp)

/-- A successful search matches at some start position. -/
theorem searchAux_split {f : List Char → Option α} {cs : List Char} {a : α}
    (h : searchAux f cs = some a) :
    ∃ pre t, cs = pre ++ t ∧ f t = some a := by
  induction cs with
  | nil => exact ⟨[], [], rfl, h⟩
  | cons c cs ih =>
    unfold searchAux at h
    rcases ho : f (c :: cs) with _ | v
    · rw [ho] at h
      simp only [Option.none_orElse] at h
      obtain ⟨pre, t, h1, h2⟩ := ih h
      exact ⟨c :: pre, t, by rw [List.cons_append, h1], h2⟩
    · rw [ho] at h
      simp only [Option.some_orElse] at h
      exact ⟨[], c :: cs, rfl, by rw [ho, h]⟩

/-- A match at the first position makes the whole search succeed. -/
theorem searchAux_head {f : List Char → Option α} {cs : List Char} {a : α}
    (h : f cs = some a) : searchAux f cs = some a := by
  cases cs with
  | nil => exact h
  | cons c cs =>
    unfold searchAux
    rw [h]
    rfl

/-- Characters of an occurring pattern are characters of the text. -/
theorem occurs_chars {pat cs : List Char} (pre post : List Char)
    (h : cs = pre ++ (pat ++ post)) : ∀ c ∈ pat, c ∈ cs := by
  intro c hc
  subst h
  simp [hc]

/-- A pattern-1 match at a position starts with one of its two verbs. -/
theorem p1At_starts {cs : List Char} {u : Unit} (h : p1At cs = some u) :
    (∃ r, cs = "добав".data ++ r) ∨ (∃ r, cs = "создай".data ++ r) := by
  unfold p1At at h
  rcases ho : litK "добав".data p1Rest cs with _ | v
  · rw [ho] at h
    simp only [Option.none_orElse] at h
    exact Or.inr (litK_starts h)
  · exact Or.inl (litK_starts ho)

/-- A pattern-2 match at a position starts with one of its four
alternatives, each of which begins with the letter `с`. -/
theorem p2At_starts {cs : List Char} {u : Unit} (h : p2At cs = some u) :
    ∃ l r, cs = l ++ r ∧ 'с' ∈ l := by
  unfold p2At at h
  rcases h1 : litK "статистик".data (fun _ => some ()) cs with _ | v
  · rw [h1] at h
    simp only [Option.none_orElse] at h
    rcases h2 : litK "средн".data (starK isWordChar
      (litK " цен".data (fun _ => some ()))) cs with _ | v
    · rw [h2] at h
      simp only [Option.none_orElse] at h
      rcases h3 : litK "сколько товаров".data (fun _ => some ()) cs with _ | v
      · rw [h3] at h
        simp only [Option.none_orElse] at h
        obtain ⟨r, hr⟩ := litK_starts h
        exact ⟨_, r, hr, by decide⟩
      · obtain ⟨r, hr⟩ := litK_starts h3
        exact ⟨_, r, hr, by decide⟩
    · obtain ⟨r, hr⟩ := litK_starts h2
      exact ⟨_, r, hr, by decide⟩
  · obtain ⟨r, hr⟩ := litK_starts h1
    exact ⟨_, r, hr, by decide⟩

/-- A pattern-3 match at a position starts with `скидк`. -/
theorem p3At_starts {cs : List Char} {v : Nat × Nat}
    (h : p3At cs = some v) : ∃ r, cs = "скидк".data ++ r := by
  unfold p3At at h
  exact litK_starts h

/-- A pattern-4 match at a position starts with one of its four verbs. -/
theorem p4At_starts {cs : List Char} {n : Nat} (h : p4At cs = some n) :
    ∃ l r, cs = l ++ r ∧
      (l = "покажи".data ∨ l = "найди".data ∨ l = "информаци".data ∨
       l = "дай".data) := by
  unfold p4At at h
  rcases h1 : litK "покажи".data p4Tail cs with _ | v
  · rw [h1] at h
    simp only [Option.none_orElse] at h
    rcases h2 : litK "найди".data p4Tail cs with _ | v
    · rw [h2] at h
      simp only [Option.none_orElse] at h
      rcases h3 : litK "информаци".data (starK isWordChar p4Tail) cs with _ | v
      · rw [h3] at h
        simp only [Option.none_orElse] at h
        obtain ⟨r, hr⟩ := litK_starts h
        exact ⟨_, r, hr, by simp⟩
      · obtain ⟨r, hr⟩ := litK_starts h3
        exact ⟨_, r, hr, by simp⟩
    · obtain ⟨r, hr⟩ := litK_starts h2
      exact ⟨_, r, hr, by simp⟩
  · obtain ⟨r, hr⟩ := litK_starts h1
    exact ⟨_, r, hr, by simp⟩

/-- Pattern 1 cannot match a text containing neither `б` nor `з`. -/
theorem searchP1_eq_none {cs : List Char} (hb : 'б' ∉ cs) (hz : 'з' ∉ cs) :
    searchP1 cs = none := by
  rcases he : searchP1 cs with _ | u
  · rfl
  exfalso
  obtain ⟨pre, t, hct, hft⟩ := searchAux_split he
  rcases p1At_starts hft with ⟨r, hr⟩ | ⟨r, hr⟩
  · exact hb (occurs_chars pre r (by rw [hct, hr]) 'б' (by decide))
  · exact hz (occurs_chars pre r (by rw [hct, hr]) 'з' (by decide))

/-- Pattern 2 cannot match a text without the letter `с`. -/
theorem searchP2_eq_none {cs : List Char} (hs : 'с' ∉ cs) :
    searchP2 cs = none := by
  rcases he : searchP2 cs with _ | u
  · rfl
  exfalso
  obtain ⟨pre, t, hct, hft⟩ := searchAux_split he
  obtain ⟨l, r, hlr, hc⟩ := p2At_starts hft
  exact hs (occurs_chars pre r (by rw [hct, hlr]) 'с' hc)

/-- Pattern 3 cannot match a text without the letter `с`. -/
theorem searchP3_eq_none {cs : List Char} (hs : 'с' ∉ cs) :
    searchP3 cs = none := by
  rcases he : searchP3 cs with _ | u
  · rfl
  exfalso
  obtain ⟨pre, t, hct, hft⟩ := searchAux_split he
  obtain ⟨r, hr⟩ := p3At_starts hft
  exact hs (occurs_chars pre r (by rw [hct, hr]) 'с' (by decide))

/-- Pattern 4 cannot match a text containing none of `ж`, `н`, `ф`,
`й`. -/
theorem searchP4_eq_none {cs : List Char} (h1 : 'ж' ∉ cs) (h2 : 'н' ∉ cs)
    (h3 : 'ф' ∉ cs) (h4 : 'й' ∉ cs) : searchP4 cs = none := by
  rcases he : searchP4 cs with _ | u
  · rfl
  exfalso
  obtain ⟨pre, t, hct, hft⟩ := searchAux_split he
  obtain ⟨l, r, hlr, hc⟩ := p4At_starts hft
  rcases hc with rfl | rfl | rfl | rfl
  · exact h1 (occurs_chars pre r (by rw [hct, hlr]) 'ж' (by decide))
  · exact h2 (occurs_chars pre r (by rw [hct, hlr]) 'н' (by decide))
  · exact h3 (occurs_chars pre r (by rw [hct, hlr]) 'ф' (by decide))
  · exact h4 (occurs_chars pre r (by rw [hct, hlr]) 'й' (by decide))

/-! ## Digit-string helper lemmas -/

/-- Lowercasing fixes digits. -/
theorem toLowerCh_digit {c : Char} (h : c.isDigit = true) :
    toLowerCh c = c := by
  have h9 : c ≤ '9' := by
    simp only [Char.isDigit, Bool.and_eq_true, decide_eq_true_eq] at h
    exact h.2
  have h1 : ¬('A' ≤ c ∧ c ≤ 'Z') := fun hx =>
    absurd (le_trans hx.1 h9) (by decide)
  have h2 : ¬('А' ≤ c ∧ c ≤ 'Я') := fun hx =>
    absurd (le_trans hx.1 h9) (by decide)
  have h3 : c ≠ 'Ё' := fun hx => by
    subst hx
    exact absurd h (by decide)
  simp [toLowerCh, h1, h2, h3]

/-- A digit is not a whitespace character. -/
theorem digit_not_space {c : Char} (h : c.isDigit = true) :
    isSpaceChar c = false := by
  simp only [Char.isDigit, Bool.and_eq_true, decide_eq_true_eq] at h
  have hl := h.1
  have hr := h.2
  simp only [isSpaceChar, Bool.or_eq_false_iff, decide_eq_false_iff_not]
  refine ⟨⟨⟨⟨⟨?_, ?_⟩, ?_⟩, ?_⟩, ?_⟩, ?_⟩ <;>
    (intro hx; subst hx; revert hl hr; decide)

/-- A digit is neither `=` nor `:`. -/
theorem digit_not_eqcolon {c : Char} (h : c.isDigit = true) :
    isEqColon c = false := by
  simp only [Char.isDigit, Bool.and_eq_true, decide_eq_true_eq] at h
  have hl := h.1
  have hr := h.2
  simp only [isEqColon, Bool.or_eq_false_iff, decide_eq_false_iff_not]
  exact ⟨fun hx => by subst hx; revert hl hr; decide,
         fun hx => by subst hx; revert hl hr; decide⟩

/-- Behaviour of `takeWhile`/`dropWhile` over an all-digit list, for a class that
rejects digits. -/
theorem takeWhile_not_digit {p : Char → Bool} {ds : List Char}
    (hd : ∀ c ∈ ds, c.isDigit = true)
    (hp : ∀ c, c.isDigit = true → p c = false) :
    ds.takeWhile p = [] ∧ ds.dropWhile p = ds := by
  cases ds with
  | nil => simp
  | cons c ds =>
    have hc := hp c (hd c (by simp))
    simp [List.takeWhile_cons, List.dropWhile_cons, hc]

/-- Behaviour of `takeWhile`/`dropWhile` of the digit class over an all-digit list. -/
theorem takeWhile_digits {ds : List Char}
    (hd : ∀ c ∈ ds, c.isDigit = true) :
    ds.takeWhile Char.isDigit = ds ∧ ds.dropWhile Char.isDigit = [] := by
  induction ds with
  | nil => simp
  | cons c ds ih =>
    have hc := hd c (by simp)
    have ih' := ih (fun x hx => hd x (by simp [hx]))
    simp [List.takeWhile_cons, List.dropWhile_cons, hc, ih'.1, ih'.2]

/-- Lowercasing fixes an all-digit list. -/
theorem map_toLowerCh_digits {ds : List Char}
    (hd : ∀ c ∈ ds, c.isDigit = true) : ds.map toLowerCh = ds := by
  induction ds with
  | nil => rfl
  | cons c ds ih =>
    rw [List.map_cons, toLowerCh_digit (hd c (by simp)),
        ih (fun x hx => hd x (by simp [hx]))]

/-- Lowercasing the query `продукт id N` changes nothing. -/
theorem lower_query_id {ds : List Char} (hd : ∀ c ∈ ds, c.isDigit = true) :
    (lowerStr ("продукт id " ++ String.mk ds)).data =
      "продукт id ".data ++ ds := by
  show (("продукт id " ++ String.mk ds).data.map toLowerCh) = _
  have hdata : ("продукт id " ++ String.mk ds).data =
      "продукт id ".data ++ ds := rfl
  rw [hdata, List.map_append, map_toLowerCh_digits hd]
  rfl

/-- Helper: a literal consumes itself. -/
theorem isPrefixOf_append_self (l r : List Char) :
    l.isPrefixOf (l ++ r) = true := by
  induction l with
  | nil => cases r <;> rfl
  | cons c l ih => simp [List.isPrefixOf, ih]

/-- Lemma: `litK` on input starting with its literal runs the continuation on
the rest. -/
theorem litK_self {l r : List Char} (k : List Char → Option α) :
    litK l k (l ++ r) = k r := by
  unfold litK
  rw [if_pos (isPrefixOf_append_self l r)]
  congr 1
  exact List.drop_left l r

/-- Pattern 5 matches the query `продукт id N` at its head and captures
the number. -/
theorem p5At_query {c : Char} {ds' : List Char}
    (hd : ∀ x ∈ (c :: ds'), x.isDigit = true) :
    p5At ("продукт id ".data ++ (c :: ds')) =
      some (digitsToNat (c :: ds')) := by
  have hsp := takeWhile_not_digit (p := isSpaceChar) hd
    (fun x hx => digit_not_space hx)
  have hdg := takeWhile_digits hd
  have hec : isEqColon c = false := digit_not_eqcolon (hd c (by simp))
  have e1 : capDigitsK (α := Nat) (fun n _ => some n) (c :: ds') =
      some (digitsToNat (c :: ds')) := by
    simp only [capDigitsK, hdg.1, hdg.2, List.isEmpty_cons,
      Bool.false_eq_true, if_false]
  have e2 : starK isSpaceChar
      (capDigitsK (α := Nat) (fun n _ => some n)) (c :: ds') =
      some (digitsToNat (c :: ds')) := by
    simp only [starK, hsp.1, hsp.2, starAux, e1]
  have e3 : optClassK isEqColon (starK isSpaceChar
      (capDigitsK (α := Nat) (fun n _ => some n))) (c :: ds') =
      some (digitsToNat (c :: ds')) := by
    simp only [optClassK, hec, Bool.false_eq_true, if_false, e2]
  have e4 : starK isSpaceChar (optClassK isEqColon (starK isSpaceChar
      (capDigitsK (α := Nat) (fun n _ => some n)))) (' ' :: (c :: ds')) =
      some (digitsToNat (c :: ds')) := by
    have htw : (' ' :: (c :: ds')).takeWhile isSpaceChar = [' '] := by
      rw [List.takeWhile_cons]
      simp only [show isSpaceChar ' ' = true from rfl, if_true, hsp.1]
    have hdw : (' ' :: (c :: ds')).dropWhile isSpaceChar = c :: ds' := by
      rw [List.dropWhile_cons]
      simp only [show isSpaceChar ' ' = true from rfl, if_true, hsp.2]
    rw [starK, htw, hdw]
    show (starAux _ [] (c :: ds') <|> _) = _
    rw [show starAux (optClassK isEqColon (starK isSpaceChar
      (capDigitsK (α := Nat) (fun n _ => some n)))) [] (c :: ds') =
      optClassK isEqColon (starK isSpaceChar
        (capDigitsK (α := Nat) (fun n _ => some n))) (c :: ds') from rfl]
    rw [e3]
    rfl
  have hfirst : litK "продукт".data p5Rest
      ("продукт id ".data ++ (c :: ds')) =
      starK isSpaceChar (optClassK isEqColon (starK isSpaceChar
        (capDigitsK (α := Nat) (fun n _ => some n)))) (' ' :: (c :: ds')) :=
    rfl
  show (litK "продукт".data p5Rest ("продукт id ".data ++ (c :: ds')) <|>
    litK "товар".data p5Rest ("продукт id ".data ++ (c :: ds'))) =
    some (digitsToNat (c :: ds'))
  rw [hfirst, e4]
  rfl

/-- The classifier on the query `продукт id N`: pattern 5 fires (patterns
1–4 cannot match, their trigger letters being absent) and the id is
captured. -/
theorem mockParse_id_query {c : Char} {ds' : List Char}
    (hd : ∀ x ∈ (c :: ds'), x.isDigit = true) :
    mockParse ("продукт id " ++ String.mk (c :: ds')) =
      ⟨[⟨"get_product",
        [("product_id", .num (digitsToNat (c :: ds')))]⟩],
       "Информация о продукте:\n{result}"⟩ := by
  have hql := lower_query_id hd
  have hnot : ∀ b : Char, b ∉ "продукт id ".data → b.isDigit = false →
      b ∉ "продукт id ".data ++ (c :: ds') := by
    intro b hb hbd hmem
    rcases List.mem_append.mp hmem with h | h
    · exact hb h
    · rw [hd b h] at hbd
      exact Bool.noConfusion hbd
  have h1 : searchP1 ("продукт id ".data ++ (c :: ds')) = none :=
    searchP1_eq_none (hnot 'б' (by decide) (by decide))
      (hnot 'з' (by decide) (by decide))
  have h2 : searchP2 ("продукт id ".data ++ (c :: ds')) = none :=
    searchP2_eq_none (hnot 'с' (by decide) (by decide))
  have h3 : searchP3 ("продукт id ".data ++ (c :: ds')) = none :=
    searchP3_eq_none (hnot 'с' (by decide) (by decide))
  have h4 : searchP4 ("продукт id ".data ++ (c :: ds')) = none :=
    searchP4_eq_none (hnot 'ж' (by decide) (by decide))
      (hnot 'н' (by decide) (by decide))
      (hnot 'ф' (by decide) (by decide))
      (hnot 'й' (by decide) (by decide))
  have h5 : searchP5 ("продукт id ".data ++ (c :: ds')) =
      some (digitsToNat (c :: ds')) := searchAux_head (p5At_query hd)
  simp only [mockParse, hql, h1, h2, h3, h4, h5]

/-- The full pipeline on `продукт id N` against a store lacking id `N`:
the response carries an error and no product. -/
theorem processQuery_id_query {ds : List Char} {store : List Product}
    (hne : ds ≠ []) (hd : ∀ x ∈ ds, x.isDigit = true)
    (hid : ∀ p ∈ store, p.id ≠ digitsToNat ds) :
    (respGet (processQuery ("продукт id " ++ String.mk ds) store)
      "error").isSome = true ∧
    respGet (processQuery ("продукт id " ++ String.mk ds) store)
      "product" = none := by
  obtain ⟨c, ds', rfl⟩ := List.exists_cons_of_ne_nil hne
  have hparse := mockParse_id_query hd
  have hfind : store.find? (fun p =>
      ((p.id : ℚ) == ((digitsToNat (c :: ds') : ℕ) : ℚ))) = none := by
    rw [List.find?_eq_none]
    intro p hp
    simp only [beq_iff_eq, Nat.cast_inj]
    exact hid p hp
  have hexec : executeCalls store
      [⟨"get_product", [("product_id", .num (digitsToNat (c :: ds')))]⟩]
      [] = (store, [("get_product", JValue.obj [("error",
        .str ("Product with ID " ++
          pyNumRepr (digitsToNat (c :: ds')) ++ " not found"))])]) := by
    simp [executeCalls, execOne, callMcp, get_product, hfind, lookupJ,
      asNum, jset]
  have hresp : (processQuery ("продукт id " ++ String.mk (c :: ds'))
      store).response = .obj [("error", .str ("Product with ID " ++
        pyNumRepr (digitsToNat (c :: ds')) ++ " not found"))] := by
    simp only [processQuery, parseNode, hparse, executeNode,
      Option.isSome_none, Bool.false_eq_true, if_false, hexec,
      formatNode, formatResults, List.foldl_cons, List.foldl_nil,
      formatStep, List.isEmpty_cons, isDict, jMember, jGet, lookupJ,
      jset]
    simp
  constructor
  · show (jGet (processQuery _ _).response "error").isSome = true
    rw [hresp]
    rfl
  · show jGet (processQuery _ _).response "product" = none
    rw [hresp]
    rfl

/-! ## Format-stage dispatch lemmas -/

/-- Lemma: `formatStep` writes exactly the key/value described by `formatKey` /
`formatVal`. -/
theorem formatStep_eq (acc : List (String × JValue))
    (entry : String × JValue) :
    formatStep acc entry = jset acc (formatKey entry) (formatVal entry) := by
  unfold formatStep formatKey formatVal
  split_ifs <;> rfl

/-- Only a `get_product` entry — or a tool literally named `product` —
can write the `product` response key. -/
theorem formatKey_product_cases (e : String × JValue)
    (h : formatKey e = "product") :
    e.1 = "get_product" ∨ e.1 = "product" := by
  unfold formatKey at h
  split_ifs at h <;> simp_all

/-- Entries that target neither `get_product` nor `product` leave the
`product` response key unchanged. -/
theorem format_fold_product_skip (tr : List (String × JValue))
    (acc : List (String × JValue))
    (hks : ∀ e ∈ tr, e.1 ≠ "get_product" ∧ e.1 ≠ "product") :
    lookupJ (tr.foldl formatStep acc) "product" = lookupJ acc "product" := by
  induction tr generalizing acc with
  | nil => rfl
  | cons e tr ih =>
    have he := hks e (by simp)
    have hk : formatKey e ≠ "product" := by
      intro hc
      rcases formatKey_product_cases e hc with h | h
      · exact he.1 h
      · exact he.2 h
    rw [List.foldl_cons, formatStep_eq,
        ih _ (fun x hx => hks x (by simp [hx])),
        lookupJ_jset_ne _ _ _ _ hk]

/-- The Format fold never removes a present response key. -/
theorem format_fold_keeps (tr : List (String × JValue)) (k : String)
    (acc : List (String × JValue)) (h : (lookupJ acc k).isSome = true) :
    (lookupJ (tr.foldl formatStep acc) k).isSome = true := by
  induction tr generalizing acc with
  | nil => exact h
  | cons e tr ih =>
    rw [List.foldl_cons, formatStep_eq]
    exact ih _ (lookupJ_jset_isSome _ _ _ _ h)

/-- Core Format-stage dispatch property for a `get_product` result `r`
among the tool results: with a `name`d dict it lands under `product`;
otherwise `product` is never written and an `error` is. -/
theorem format_fold_get_product (tr : List (String × JValue)) (r : JValue) :
    ∀ acc : List (String × JValue),
    (tr.map Prod.fst).Nodup → "product" ∉ tr.map Prod.fst →
    lookupJ tr "get_product" = some r →
    (((isDict r && jMember "name" r) = true →
        lookupJ (tr.foldl formatStep acc) "product" = some r) ∧
     ((isDict r && jMember "name" r) = false → lookupJ acc "product" = none →
        lookupJ (tr.foldl formatStep acc) "product" = none ∧
        (lookupJ (tr.foldl formatStep acc) "error").isSome = true)) := by
  induction tr with
  | nil =>
    intro acc _ _ hl
    exact absurd hl (by simp [lookupJ])
  | cons e tr ih =>
    intro acc hnd hnp hl
    obtain ⟨en, ev⟩ := e
    rw [List.map_cons, List.nodup_cons] at hnd
    rw [List.map_cons, List.mem_cons] at hnp
    push_neg at hnp
    by_cases he : en = "get_product"
    · subst he
      have hev : ev = r := by
        simpa [lookupJ] using hl
      subst hev
      have hrest : ∀ e' ∈ tr, e'.1 ≠ "get_product" ∧ e'.1 ≠ "product" := by
        intro e' he'
        constructor
        · intro hc
          have hm := List.mem_map_of_mem Prod.fst he'
          rw [hc] at hm
          exact hnd.1 hm
        · intro hc
          have hm := List.mem_map_of_mem Prod.fst he'
          rw [hc] at hm
          exact hnp.2 hm
      constructor
      · intro hname
        rw [List.foldl_cons, formatStep_eq,
            format_fold_product_skip tr _ hrest]
        have hkey : formatKey ("get_product", ev) = "product" := by
          unfold formatKey
          simp [hname]
        have hval : formatVal ("get_product", ev) = ev := by
          unfold formatVal
          simp [hname]
        rw [hkey, hval, lookupJ_jset_self]
      · intro hname hacc
        have hkey : formatKey ("get_product", ev) = "error" := by
          unfold formatKey
          simp [hname]
        constructor
        · rw [List.foldl_cons, formatStep_eq,
              format_fold_product_skip tr _ hrest, hkey,
              lookupJ_jset_ne _ _ _ _ (by decide), hacc]
        · rw [List.foldl_cons, formatStep_eq, hkey]
          exact format_fold_keeps tr "error" _
            (by rw [lookupJ_jset_self]; rfl)
    · have hl' : lookupJ tr "get_product" = some r := by
        simpa [lookupJ, he] using hl
      have hkey : formatKey (en, ev) ≠ "product" := by
        intro hc
        rcases formatKey_product_cases (en, ev) hc with h | h
        · exact he h
        · exact hnp.1 h.symm
      have ihr := ih (formatStep acc (en, ev)) hnd.2 hnp.2 hl'
      refine ⟨fun hname => ?_, fun hname hacc => ?_⟩
      · rw [List.foldl_cons]
        exact ihr.1 hname
      · have hacc' : lookupJ (formatStep acc (en, ev)) "product" = none := by
          rw [formatStep_eq, lookupJ_jset_ne _ _ _ _ hkey, hacc]
        rw [List.foldl_cons]
        exact ihr.2 hname hacc'

/-! ## Claim C7: get-product results in the Format stage -/

/-- C7: in the Format stage a `get_product` tool result that is a dict
with a `name` field is placed in the response under `product`; otherwise
the response gains an `error` key (the result's own error message, or
the generic not-found text) and no `product` key.  In particular, for
every query `продукт id N` whose id `N` is absent from the store, the
pipeline response carries `error` and no `product`. -/
theorem C7_get_product_formatting (tr : List (String × JValue)) (r : JValue)
    (hnd : (tr.map Prod.fst).Nodup) (hnp : "product" ∉ tr.map Prod.fst)
    (hl : lookupJ tr "get_product" = some r) :
    ((isDict r && jMember "name" r) = true →
       lookupJ (formatResults tr) "product" = some r) ∧
    ((isDict r && jMember "name" r) = false →
       lookupJ (formatResults tr) "product" = none ∧
       (lookupJ (formatResults tr) "error").isSome = true) ∧
    (∀ (ds : List Char) (store : List Product), ds ≠ [] →
       (∀ x ∈ ds, x.isDigit = true) →
       (∀ p ∈ store, p.id ≠ digitsToNat ds) →
       (respGet (processQuery ("продукт id " ++ String.mk ds) store)
         "error").isSome = true ∧
       respGet (processQuery ("продукт id " ++ String.mk ds) store)
         "product" = none) := by
  have h := format_fold_get_product tr r [] hnd hnp hl
  exact ⟨h.1, fun hn => h.2 hn rfl,
         fun ds store hne hd hid => processQuery_id_query hne hd hid⟩

/-- Witness for C7: a found product lands under `product`; the query
`продукт id 9999` against the empty store yields an error and no
product. -/
theorem C7_witness :
    ((List.map Prod.fst [("get_product",
        productToJson ⟨1, "Стол", 100, "Мебель", true⟩)]).Nodup ∧
     "product" ∉ List.map Prod.fst [("get_product",
        productToJson ⟨1, "Стол", 100, "Мебель", true⟩)] ∧
     lookupJ [("get_product", productToJson ⟨1, "Стол", 100, "Мебель", true⟩)]
       "get_product" = some (productToJson ⟨1, "Стол", 100, "Мебель", true⟩)) ∧
    lookupJ (formatResults [("get_product",
      productToJson ⟨1, "Стол", 100, "Мебель", true⟩)]) "product" =
      some (productToJson ⟨1, "Стол", 100, "Мебель", true⟩) ∧
    (respGet (processQuery ("продукт id " ++ String.mk ['9', '9', '9', '9'])
      []) "error").isSome = true ∧
    respGet (processQuery ("продукт id " ++ String.mk ['9', '9', '9', '9'])
      []) "product" = none :=
  ⟨⟨by simp, by simp, rfl⟩,
   (C7_get_product_formatting
     [("get_product", productToJson ⟨1, "Стол", 100, "Мебель", true⟩)]
     (productToJson ⟨1, "Стол", 100, "Мебель", true⟩)
     (by simp) (by simp) rfl).1 rfl,
   (C7_get_product_formatting
     [("get_product", productToJson ⟨1, "Стол", 100, "Мебель", true⟩)]
     (productToJson ⟨1, "Стол", 100, "Мебель", true⟩)
     (by simp) (by simp) rfl).2.2 ['9', '9', '9', '9'] []
     (by decide) (by decide) (by simp)⟩
